import Mathlib

/-!
Verification development for the allocator core of the `fluf` repository
(`src/include/core/mem/layout.h`, `src/include/core/mem/allocer.h`,
`src/include/core/math.h`, `src/src/std/allocers/bump.c`).

The C code is shallowly embedded: machine integers (`usize`, 64-bit) are
natural numbers reduced modulo `2 ^ 64` exactly where the C arithmetic can
wrap; pointers are natural numbers with `Option` covering `NULL`; the
backing allocator (`allocer_t`) is a record of state-transformer functions;
the intrusive `prev`-linked chunk chain of the bump arena is a Lean list
whose head is the current chunk, with the static empty sentinel chunk
represented by the empty list.  `massert` is compiled out in release builds
(`NDEBUG` branch of `core/msg.h`), so it is modelled as a no-op; the one
assert the specification treats as an abort contract — the power-of-two
check of the `layout()` constructor — is modelled by an `Option` result.
-/

set_option maxRecDepth 100000

namespace Fluf

/-- The number of values of the 64-bit `usize` type: `2 ^ 64`. -/
def USIZE : Nat := 2 ^ 64

/-- `SIZE_MAX`, the largest `usize` value. -/
def SIZE_MAX : Nat := USIZE - 1

/-- `is_power_of_two` from `core/math.h`:
`(n > 0) && ((n & (n - 1)) == 0)`. -/
def is_power_of_two (n : Nat) : Bool :=
  decide (0 < n) && decide (n &&& (n - 1) = 0)

/-- Mathematical power-of-two predicate used in theorem hypotheses. -/
def IsPow2 (n : Nat) : Prop := ∃ k : Nat, n = 2 ^ k

/-- `align_up` from `core/math.h`: `(n + align - 1) & ~(align - 1)` on
`usize`.  The sum wraps modulo `2 ^ 64`; for a power-of-two `align`
(a precondition asserted by the C code) the bitmask equals rounding the
wrapped sum down to a multiple of `align`, which is how it is written
here. -/
def align_up (n a : Nat) : Nat := a * (((n + a - 1) % USIZE) / a)

/-- `align_down` from `core/math.h`: `n & ~(align - 1)` on `usize`, i.e.
round `n` down to a multiple of the power-of-two `align`. -/
def align_down (n a : Nat) : Nat := a * (n / a)

/-- `checked_add` (`__builtin_add_overflow` on `u64`): `none` on overflow. -/
def checked_add (a b : Nat) : Option Nat :=
  if a + b < USIZE then some (a + b) else none

/-- `checked_mul` (`__builtin_mul_overflow` on `u64`): `none` on overflow. -/
def checked_mul (a b : Nat) : Option Nat :=
  if a * b < USIZE then some (a * b) else none

/-- Wrapping `usize` subtraction `a - b` (for `b ≤ SIZE_MAX`). -/
def wrap_sub (a b : Nat) : Nat := (a + USIZE - b) % USIZE

/-! ### Layout descriptors (`core/mem/layout.h`) -/

/-- `layout_t`: a (size, alignment) pair. -/
structure layout_t where
  size : Nat
  align : Nat
deriving Repr, DecidableEq

/-- The `layout()` constructor.  Its `massert` aborts on a
non-power-of-two alignment, modelled as `none`. -/
def layout_ctor (size align : Nat) : Option layout_t :=
  if is_power_of_two align then some ⟨size, align⟩ else none

/-- `layout_of_array(T, N)` = `layout(sizeof(T) * (N), alignof(T))`.
The multiplication is plain `usize` multiplication and wraps
modulo `2 ^ 64`. -/
def layout_of_array (item_size item_align count : Nat) : Option layout_t :=
  layout_ctor ((item_size * count) % USIZE) item_align

/-! ### Raw memory and `memcpy` -/

/-- Flat byte-addressed memory. -/
def Mem : Type := Nat → Nat

/-- `memcpy(dst, src, n)` on flat memory. -/
def memcpy (dst src n : Nat) (m : Mem) : Mem :=
  fun a => if dst ≤ a ∧ a < dst + n then m (src + (a - dst)) else m a

/-! ### The backing allocator capability (`core/mem/allocer.h`)

An `allocer_t` is a fat pointer `{self, vtable}`.  Here the `self` state has
type `β` and each vtable entry is a state transformer.  `alloc` returns the
new state and the allocated address (`none` = `NULL`). -/

/-- The mandatory part of an allocator capability, as used by the bump
arena for its chunks (`allocer_alloc` / `allocer_free`). -/
structure Backing (β : Type) where
  alloc : β → layout_t → β × Option Nat
  free : β → Nat → layout_t → β

/-! ### Bump arena data model (`std/allocers/bump.h`, `bump.c`) -/

/-- `CHUNK_ALIGN` from `bump.c`. -/
def CHUNK_ALIGN : Nat := 16

/-- `FOOTER_SIZE = align_up(sizeof(chunk_footer_t), CHUNK_ALIGN)`.
On the LP64 targets the code is written for, `chunk_footer_t` is five
8-byte fields = 40 bytes, so the footer occupies 48 bytes. -/
def FOOTER_SIZE : Nat := 48

/-- `DEFAULT_CHUNK_SIZE_WITHOUT_FOOTER = 4096 - FOOTER_SIZE`. -/
def DEFAULT_CHUNK_SIZE_WITHOUT_FOOTER : Nat := 4096 - FOOTER_SIZE

/-- `chunk_footer_t`.  The C footer lives at the high end of its own
chunk; its address (`(chunk_footer_t *)(data + new_size_no_footer)` in C)
is recorded explicitly as `self_addr`.  The `prev` link is represented by
list structure (see `bump_t.chunks`), not by a field. -/
structure chunk_footer_t where
  data_start : Nat
  chunk_size : Nat
  self_addr : Nat
  ptr : Nat
  allocated_bytes : Nat
deriving Repr, DecidableEq

/-- The static `EMPTY_CHUNK_SINGLETON`, located at some address `S`:
`data_start`, `ptr` and `prev` all point at the singleton itself and
`chunk_size = allocated_bytes = 0`. -/
def sentinel (S : Nat) : chunk_footer_t := ⟨S, 0, S, S, 0⟩

/-- `bump_t`.  `chunks` is the `prev`-linked chunk chain starting at
`current_chunk`; the empty list is the empty-sentinel state.  The backing
capability is passed separately to each operation (it is borrowed state of
type `β`). -/
structure bump_t where
  chunks : List chunk_footer_t
  limit : Nat
  allocated : Nat
  min_align : Nat
deriving Repr, DecidableEq

/-- The chunk `bump->current_chunk` points at (the sentinel when the chain
is empty).  `S` is the sentinel address. -/
def cur_footer (S : Nat) (self : bump_t) : chunk_footer_t :=
  self.chunks.headD (sentinel S)

/-- Store `footer->ptr = p` on the current chunk.  On the sentinel this is
a write of the sentinel address back to itself (the only value the code
can ever store there), hence a no-op. -/
def set_cur_ptr (self : bump_t) (p : Nat) : bump_t :=
  match self.chunks with
  | [] => self
  | c :: rest => { self with chunks := { c with ptr := p } :: rest }

/-- `bump_init(self, backing, min_align)`.  Preconditions asserted by the
C code: `min_align` is a power of two and `min_align ≤ CHUNK_ALIGN`. -/
def bump_init (min_align : Nat) : bump_t :=
  { chunks := [], limit := SIZE_MAX, allocated := 0, min_align := min_align }

/-- `dealloc_chunk_list`: walk the chain, freeing each chunk's raw block
via `allocer_free(backing, data_start, layout(chunk_size, CHUNK_ALIGN))`. -/
def dealloc_chunk_list (bk : Backing β) (b : β) (cs : List chunk_footer_t) : β :=
  cs.foldl (fun acc c => bk.free acc c.data_start ⟨c.chunk_size, CHUNK_ALIGN⟩) b

/-- `bump_deinit`: free every chunk, then point at the empty sentinel. -/
def bump_deinit (bk : Backing β) (b : β) (self : bump_t) : β × bump_t :=
  (dealloc_chunk_list bk b self.chunks, { self with chunks := [] })

/-- `bump_reset`: free every chunk except the current one, relink the
current chunk to the sentinel, rewind its bump pointer to the footer
address rounded down to `min_align`, and recompute `allocated_bytes` as
the usable size of the surviving chunk. -/
def bump_reset (bk : Backing β) (b : β) (self : bump_t) : β × bump_t :=
  match self.chunks with
  | [] => (b, self)
  | c :: rest =>
    let b2 := dealloc_chunk_list bk b rest
    let newptr := align_down c.self_addr self.min_align
    let usable_size := c.self_addr - c.data_start
    (b2, { self with
             chunks := [{ c with ptr := newptr, allocated_bytes := usable_size }] })

/-- `new_chunk(bump, new_size_no_footer, align, prev)`.  Returns the new
backing state and the footer of the freshly allocated chunk (`none` on
overflow or backing OOM). -/
def new_chunk (bk : Backing β) (b : β) (min_align : Nat)
    (new_size_no_footer align : Nat) (prev : chunk_footer_t) :
    β × Option chunk_footer_t :=
  let n := align_up new_size_no_footer CHUNK_ALIGN
  match checked_add n FOOTER_SIZE with
  | none => (b, none)
  | some sz =>
    let alloc_size := align_up sz align
    if alloc_size = 0 then (b, none)
    else
      let r := bk.alloc b ⟨alloc_size, align⟩
      match r.2 with
      | none => (r.1, none)
      | some data =>
        let footer_addr := data + n
        (r.1, some { data_start := data
                     chunk_size := alloc_size
                     self_addr := footer_addr
                     ptr := align_down footer_addr min_align
                     allocated_bytes := (prev.allocated_bytes + n) % USIZE })

/-- Step 1–3 of `alloc_layout_slow`: the requested allocation size after
rounding up to `max(layout.align, min_align)`. -/
def slow_requested_size (self : bump_t) (l : layout_t) : Nat :=
  align_up l.size (max l.align self.min_align)

/-- Step 1–2 of `alloc_layout_slow`: double the previous usable capacity
(saturating at `SIZE_MAX`), clamp up to the default chunk size, then clamp
up to the requested size. -/
def slow_candidate (S : Nat) (self : bump_t) (l : layout_t) : Nat :=
  let cf := cur_footer S self
  let prev_usable_size :=
    if self.chunks.isEmpty then 0 else wrap_sub cf.chunk_size FOOTER_SIZE
  let n1 := match checked_mul prev_usable_size 2 with
            | none => SIZE_MAX
            | some v => v
  let n2 := if n1 < DEFAULT_CHUNK_SIZE_WITHOUT_FOOTER
            then DEFAULT_CHUNK_SIZE_WITHOUT_FOOTER else n1
  if n2 < slow_requested_size self l then slow_requested_size self l else n2

/-- Steps 4–6 of `alloc_layout_slow`: allocate a chunk of usable size
`n4`, install it as current, and carve the allocation out of it.  The
`checked_add` in the small-alignment branch can still fail after the chunk
was installed, in which case `NULL` is returned with the chunk kept. -/
def alloc_in_new_chunk (S : Nat) (bk : Backing β) (b : β) (self : bump_t)
    (l : layout_t) (n4 : Nat) : β × bump_t × Option Nat :=
  let cf := cur_footer S self
  let chunk_align0 := max CHUNK_ALIGN self.min_align
  let chunk_align := if l.align > chunk_align0 then l.align else chunk_align0
  let nc := new_chunk bk b self.min_align n4 chunk_align cf
  match nc.2 with
  | none => (nc.1, self, none)
  | some nf =>
    let self2 := { self with chunks := nf :: self.chunks }
    let ptr := nf.ptr
    if l.align ≤ self.min_align then
      match checked_add l.size (self.min_align - 1) with
      | none => (nc.1, self2, none)
      | some _ =>
        let aligned_size := align_up l.size self.min_align
        let result_ptr := ptr - aligned_size
        (nc.1, set_cur_ptr self2 result_ptr, some result_ptr)
    else
      let aligned_size := align_up l.size l.align
      let aligned_ptr_end := align_down ptr l.align
      let result_ptr := aligned_ptr_end - aligned_size
      (nc.1, set_cur_ptr self2 result_ptr, some result_ptr)

/-- `alloc_layout_slow`: growth strategy, allocation-limit check, then
chunk allocation and carving.  Returns the new backing state, the new
arena state, and the result pointer (`none` = `NULL`). -/
def alloc_layout_slow (S : Nat) (bk : Backing β) (b : β) (self : bump_t)
    (l : layout_t) : β × bump_t × Option Nat :=
  let cf := cur_footer S self
  let n3 := slow_candidate S self l
  let requested_size := slow_requested_size self l
  if self.limit ≠ SIZE_MAX then
    let allocated := cf.allocated_bytes
    let remaining := if self.limit > allocated then self.limit - allocated else 0
    if n3 > remaining then
      if requested_size > remaining then (b, self, none)
      else alloc_in_new_chunk S bk b self l requested_size
    else alloc_in_new_chunk S bk b self l n3
  else alloc_in_new_chunk S bk b self l n3

/-- `try_alloc_layout_fast`: the in-chunk fast path.  `none` means the
current chunk has no room (fall through to the slow path). -/
def try_alloc_layout_fast (S : Nat) (self : bump_t) (l : layout_t) :
    Option (bump_t × Nat) :=
  let f := cur_footer S self
  let ptr := f.ptr
  let start := f.data_start
  if l.align ≤ self.min_align then
    let aligned_size := align_up l.size self.min_align
    let capacity := ptr - start
    if aligned_size > capacity then none
    else some (set_cur_ptr self (ptr - aligned_size), ptr - aligned_size)
  else
    let aligned_size := align_up l.size l.align
    let aligned_ptr_end := align_down ptr l.align
    if aligned_ptr_end < start then none
    else if aligned_size > aligned_ptr_end - start then none
    else some (set_cur_ptr self (aligned_ptr_end - aligned_size),
               aligned_ptr_end - aligned_size)

/-- `bump_alloc_layout`: zero-size requests return the current bump
pointer rounded down; an invalid alignment is coerced to 1; then the fast
path, falling back to the slow path. -/
def bump_alloc_layout (S : Nat) (bk : Backing β) (b : β) (self : bump_t)
    (l : layout_t) : β × bump_t × Option Nat :=
  if l.size = 0 then
    (b, self, some (align_down (cur_footer S self).ptr l.align))
  else
    let l2 := if l.align = 0 || !is_power_of_two l.align
              then { l with align := 1 } else l
    match try_alloc_layout_fast S self l2 with
    | some (self2, p) => (b, self2, some p)
    | none => alloc_layout_slow S bk b self l2

/-- `bump_alloc(self, size, align)` = `bump_alloc_layout(self,
layout(size, align))`. -/
def bump_alloc (S : Nat) (bk : Backing β) (b : β) (self : bump_t)
    (size align : Nat) : β × bump_t × Option Nat :=
  bump_alloc_layout S bk b self ⟨size, align⟩

/-- `bump_realloc(self, old_ptr, old_size, new_size, align)` with flat
memory `m` threaded through for the `memcpy`. -/
def bump_realloc (S : Nat) (bk : Backing β) (b : β) (self : bump_t)
    (m : Mem) (old_ptr : Option Nat) (old_size new_size align : Nat) :
    β × bump_t × Mem × Option Nat :=
  match old_ptr with
  | none =>
    let r := bump_alloc S bk b self new_size align
    (r.1, r.2.1, m, r.2.2)
  | some op =>
    if new_size = 0 then (b, self, m, none)
    else
      let r := bump_alloc S bk b self new_size align
      match r.2.2 with
      | none => (r.1, r.2.1, m, none)
      | some np =>
        (r.1, r.2.1, memcpy np op (min old_size new_size) m, some np)

/-- `bump_set_allocation_limit`. -/
def bump_set_allocation_limit (self : bump_t) (limit : Nat) : bump_t :=
  { self with limit := limit }

/-- `bump_get_allocated_bytes` = `current_chunk->allocated_bytes`. -/
def bump_get_allocated_bytes (S : Nat) (self : bump_t) : Nat :=
  (cur_footer S self).allocated_bytes

/-! ### The interface-level vtable wrappers (`core/mem/allocer.h`) -/

/-- `allocer_vtable_t`: mandatory `alloc`/`free`, optional
`realloc`/`zalloc` (`none` = `nullptr` entry).  The optional entries also
transform flat memory, since a native `realloc`/`zalloc` may move or clear
bytes. -/
structure allocer_vtable (β : Type) where
  alloc : β → layout_t → β × Option Nat
  free : β → Nat → layout_t → β
  realloc : Option (β → Mem → Option Nat → layout_t → layout_t → β × Mem × Option Nat)
  zalloc : Option (β → Mem → layout_t → β × Mem × Option Nat)

/-- `allocer_alloc`. -/
def allocer_alloc (vt : allocer_vtable β) (b : β) (l : layout_t) :
    β × Option Nat :=
  vt.alloc b l

/-- `allocer_free`: guaranteed no-op on a `NULL` pointer, enforced at the
interface layer before the backend is reached. -/
def allocer_free (vt : allocer_vtable β) (b : β) (p : Option Nat)
    (l : layout_t) : β :=
  match p with
  | none => b
  | some q => vt.free b q l

/-- `allocer_realloc`: dispatch to the backend `realloc` when present,
otherwise the generic alloc + memcpy + free fallback. -/
def allocer_realloc (vt : allocer_vtable β) (b : β) (m : Mem)
    (p : Option Nat) (old_layout new_layout : layout_t) :
    β × Mem × Option Nat :=
  match vt.realloc with
  | some r => r b m p old_layout new_layout
  | none =>
    match p with
    | none =>
      let a := allocer_alloc vt b new_layout
      (a.1, m, a.2)
    | some q =>
      if new_layout.size = 0 then
        (allocer_free vt b (some q) old_layout, m, none)
      else
        let a := allocer_alloc vt b new_layout
        match a.2 with
        | none => (a.1, m, none)
        | some np =>
          let copy_size := min new_layout.size old_layout.size
          (allocer_free vt a.1 (some q) old_layout,
           memcpy np q copy_size m, some np)

/-! ### Invariants and backing contracts -/

/-- The chunk invariant of the specification: the bump pointer stays
between `data_start` and the chunk's high end (the footer address), and is
a multiple of `min_align`. -/
def ChunkInv (min_align : Nat) (c : chunk_footer_t) : Prop :=
  c.data_start ≤ c.ptr ∧ c.ptr ≤ c.self_addr ∧ c.ptr % min_align = 0

/-- The arena invariant: every real chunk in the chain satisfies
`ChunkInv`. -/
def BumpInv (self : bump_t) : Prop :=
  ∀ c ∈ self.chunks, ChunkInv self.min_align c

/-- Sanity of a real chunk, as established by `new_chunk`: its block is
non-null and 16-aligned, holds at least the footer, and is physically
small enough that doubling its size cannot overflow `usize`. -/
def SaneChunk (c : chunk_footer_t) : Prop :=
  c.data_start % 16 = 0 ∧ 0 < c.data_start ∧
  FOOTER_SIZE ≤ c.chunk_size ∧ c.chunk_size ≤ 2 ^ 62

/-- A backing allocator that honours the `allocer_t` contract: a
successful allocation for a layout with non-zero alignment returns a
non-null address aligned to the layout. -/
def WellBacking (bk : Backing β) : Prop :=
  ∀ b l b2 p, 0 < l.align → bk.alloc b l = (b2, some p) →
    0 < p ∧ p % l.align = 0

/-- A backing allocator that never reports OOM (used to state that an
allocation succeeds whenever the arena logic itself does not fail). -/
def InfallibleBacking (bk : Backing β) : Prop :=
  ∀ b l, (bk.alloc b l).2.isSome

/-- A concrete well-behaved backing allocator over a next-free-address
counter, used to witness the theorems on concrete inputs. -/
def demoBacking : Backing Nat :=
  { alloc := fun b l =>
      let p := l.align * (b / l.align + 1)
      (p + l.size, some p)
    free := fun b _ _ => b }

/-- A backing allocator whose state counts `free` calls. -/
def countFreeBacking : Backing Nat :=
  { alloc := fun b _ => (b, some 16)
    free := fun b _ _ => b + 1 }

/-- A concrete vtable without a native `realloc` (as on POSIX, where
`SYSTEM_VTABLE.realloc = nullptr`), used as a witness instance. -/
def demoVtable : allocer_vtable Nat :=
  { alloc := demoBacking.alloc
    free := fun b _ _ => b + 1
    realloc := none
    zalloc := none }

/-! ### Arithmetic lemmas about the alignment helpers -/

theorem USIZE_pos : 0 < USIZE := by decide

theorem IsPow2.pos (h : IsPow2 a) : 0 < a := by
  obtain ⟨k, rfl⟩ := h; exact Nat.pos_pow_of_pos k (by decide)

theorem IsPow2.dvd_of_le (ha : IsPow2 a) (hb : IsPow2 b) (h : a ≤ b) :
    a ∣ b := by
  obtain ⟨j, rfl⟩ := ha
  obtain ⟨k, rfl⟩ := hb
  exact pow_dvd_pow 2 ((Nat.pow_le_pow_iff_right (by decide)).1 h)

theorem IsPow2.sixteen : IsPow2 16 := ⟨4, rfl⟩

/-- The boolean `is_power_of_two` of the C code agrees with the
mathematical power-of-two predicate. -/
theorem is_power_of_two_iff : is_power_of_two n = true ↔ IsPow2 n := by
  constructor
  · intro h
    simp only [is_power_of_two, Bool.and_eq_true, decide_eq_true_eq] at h
    obtain ⟨hn, hand⟩ := h
    have h1 : 2 ^ n.log2 ≤ n := Nat.log2_self_le (by omega)
    have h2 : n < 2 ^ (n.log2 + 1) := Nat.lt_log2_self
    by_cases heq : n = 2 ^ n.log2
    · exact ⟨n.log2, heq⟩
    · exfalso
      have hlt : 2 ^ n.log2 < n := lt_of_le_of_ne h1 (fun he => heq he.symm)
      have hp : n / 2 ^ n.log2 = 1 := by
        apply Nat.div_eq_of_lt_le <;> simpa [Nat.pow_succ] using by omega
      have hq : (n - 1) / 2 ^ n.log2 = 1 := by
        apply Nat.div_eq_of_lt_le <;> simpa [Nat.pow_succ] using by omega
      have ht : (n &&& (n - 1)).testBit n.log2 = true := by
        rw [Nat.testBit_and, Nat.testBit_to_div_mod, Nat.testBit_to_div_mod,
          hp, hq]
        rfl
      rw [hand, Nat.zero_testBit] at ht
      exact Bool.false_ne_true ht
  · rintro ⟨k, rfl⟩
    simp only [is_power_of_two, Bool.and_eq_true, decide_eq_true_eq]
    refine ⟨Nat.pos_pow_of_pos k (by decide), Nat.eq_of_testBit_eq fun i => ?_⟩
    rw [Nat.testBit_and, Nat.testBit_two_pow, Nat.testBit_two_pow_sub_one,
      Nat.zero_testBit]
    by_cases h : k = i <;> simp [h]

theorem dvd_mod_zero (h : a ∣ n) : n % a = 0 := by
  obtain ⟨c, rfl⟩ := h; exact Nat.mul_mod_right a c

theorem mod_zero_dvd (h : n % a = 0) : a ∣ n :=
  Nat.dvd_of_mod_eq_zero h

theorem align_down_le : align_down n a ≤ n := Nat.mul_div_le n a

theorem dvd_align_down : a ∣ align_down n a := Dvd.intro _ rfl

theorem align_down_mod : align_down n a % a = 0 := dvd_mod_zero dvd_align_down

theorem align_down_eq_of_dvd (h : a ∣ n) : align_down n a = n := by
  unfold align_down
  exact Nat.mul_div_cancel' h

theorem le_align_down (ha : 0 < a) (hm : a ∣ m) (h : m ≤ n) :
    m ≤ align_down n a := by
  obtain ⟨t, rfl⟩ := hm
  unfold align_down
  exact Nat.mul_le_mul_left a
    ((Nat.le_div_iff_mul_le ha).2 (by rw [Nat.mul_comm]; exact h))

theorem dvd_align_up : a ∣ align_up n a := Dvd.intro _ rfl

theorem align_up_mod : align_up n a % a = 0 := dvd_mod_zero dvd_align_up

theorem le_align_up (ha : 0 < a) (hw : n + a ≤ USIZE) : n ≤ align_up n a := by
  unfold align_up
  rw [Nat.mod_eq_of_lt (by omega)]
  have hd := Nat.div_add_mod (n + a - 1) a
  have hr : (n + a - 1) % a < a := Nat.mod_lt _ ha
  omega

theorem align_up_le (ha : 0 < a) (hm : a ∣ m) (h : n ≤ m)
    (hw : n + a ≤ USIZE) : align_up n a ≤ m := by
  obtain ⟨t, rfl⟩ := hm
  unfold align_up
  rw [Nat.mod_eq_of_lt (by omega)]
  have hle : (n + a - 1) / a ≤ t := by
    have h2 : n + a - 1 ≤ a * t + (a - 1) := by omega
    have h3 : (a * t + (a - 1)) / a = t + (a - 1) / a := Nat.mul_add_div ha t (a - 1)
    have h4 : (a - 1) / a = 0 := Nat.div_eq_of_lt (by omega)
    calc (n + a - 1) / a ≤ (a * t + (a - 1)) / a := Nat.div_le_div_right h2
      _ = t := by omega
  exact Nat.mul_le_mul_left a hle

theorem align_up_eq_of_dvd (ha : 0 < a) (h : a ∣ n) (hw : n + a ≤ USIZE) :
    align_up n a = n :=
  le_antisymm (align_up_le ha h le_rfl hw) (le_align_up ha hw)

theorem align_up_lt (ha : 0 < a) (hw : n + a ≤ USIZE) : align_up n a < n + a := by
  unfold align_up
  rw [Nat.mod_eq_of_lt (by omega)]
  have hd := Nat.div_add_mod (n + a - 1) a
  omega

theorem wrap_sub_eq (hb : b ≤ a) (ha : a < USIZE) : wrap_sub a b = a - b := by
  unfold wrap_sub
  have h1 : a + USIZE - b = (a - b) + USIZE := by omega
  rw [h1, Nat.add_mod_right, Nat.mod_eq_of_lt (by omega)]

theorem sub_mod_zero (ha : a ∣ m) (hb : a ∣ n) : (m - n) % a = 0 :=
  dvd_mod_zero (Nat.dvd_sub' ha hb)

/-! ### Helper lemmas about memcpy and the demo instances -/

theorem memcpy_in (m : Mem) (h : i < n) : memcpy d s n m (d + i) = m (s + i) := by
  unfold memcpy
  rw [if_pos ⟨Nat.le_add_right d i, by omega⟩]
  congr 1
  omega

theorem memcpy_out (m : Mem) (h : a < d ∨ d + n ≤ a) : memcpy d s n m a = m a := by
  unfold memcpy
  rw [if_neg]
  omega

theorem demoBacking_well : WellBacking demoBacking := by
  intro b l b2 p hal h
  simp only [demoBacking, Prod.mk.injEq, Option.some.injEq] at h
  obtain ⟨-, rfl⟩ := h
  exact ⟨Nat.mul_pos hal (Nat.succ_pos _), Nat.mul_mod_right _ _⟩

theorem demoBacking_infallible : InfallibleBacking demoBacking := by
  intro b l
  simp [demoBacking]

theorem dealloc_count (k : Nat) (cs : List chunk_footer_t) :
    dealloc_chunk_list countFreeBacking k cs = k + cs.length := by
  induction cs generalizing k with
  | nil => rfl
  | cons c cs ih =>
    show dealloc_chunk_list countFreeBacking (k + 1) cs = k + (cs.length + 1)
    rw [ih]
    omega

/-! ### C9: the array-layout constructor and multiplicative overflow -/

/-- C9 counterexample: at `item_size = 2^32`, `count = 2^32` the product
overflows `usize`, yet `layout_of_array` does not fail: it returns a
layout whose size has wrapped around to `0`. -/
theorem layout_of_array_overflow_counterexample :
    USIZE ≤ 2 ^ 32 * 2 ^ 32
    ∧ layout_of_array (2 ^ 32) 8 (2 ^ 32) = some ⟨0, 8⟩ := by
  constructor
  · decide
  · rfl

/-- C9 (amended): `layout_of_array` computes
`size = item_size * count` as plain `usize` multiplication, wrapping
modulo `2 ^ 64` with no overflow check; for every power-of-two item
alignment it succeeds and returns the (possibly wrapped) size. -/
theorem layout_of_array_wraps (item_size item_align count : Nat)
    (h : IsPow2 item_align) :
    layout_of_array item_size item_align count
      = some ⟨(item_size * count) % USIZE, item_align⟩ := by
  unfold layout_of_array layout_ctor
  rw [if_pos (is_power_of_two_iff.2 h)]

/-- C9 witness: the amended theorem applied at `item_size = 4`,
`item_align = 4`, `count = 5`. -/
theorem layout_of_array_wraps_witness :
    layout_of_array 4 4 5 = some ⟨(4 * 5) % USIZE, 4⟩ :=
  layout_of_array_wraps 4 4 5 ⟨2, rfl⟩

/-! ### C8: invalid alignment is coerced to 1 by `bump_alloc_layout` -/

/-- C8: for a non-zero-size request whose alignment is zero or not a
power of two, `bump_alloc_layout` coerces the alignment to `1` and
proceeds exactly as if alignment 1 had been requested, whereas the
`layout()` constructor aborts on the same alignment. -/
theorem bump_alloc_layout_coerces_align (S : Nat) (bk : Backing β) (b : β)
    (self : bump_t) (l : layout_t) (hsz : l.size ≠ 0)
    (hal : l.align = 0 ∨ ¬ IsPow2 l.align) :
    bump_alloc_layout S bk b self l
      = bump_alloc_layout S bk b self ⟨l.size, 1⟩
    ∧ layout_ctor l.size l.align = none := by
  have hb : is_power_of_two l.align = false := by
    rcases hal with h | h
    · rw [h]; rfl
    · cases hp : is_power_of_two l.align
      · rfl
      · exact absurd (is_power_of_two_iff.1 hp) h
  refine ⟨?_, by unfold layout_ctor; rw [hb]; rfl⟩
  unfold bump_alloc_layout
  rw [if_neg hsz, if_neg hsz]
  simp only [hb, Bool.not_false, Bool.or_true, if_true]
  norm_num

/-- C8 witness: the theorem at the concrete invalid alignment 3. -/
theorem bump_alloc_layout_coerces_align_witness :
    bump_alloc_layout 64 demoBacking 16 (bump_init 1) ⟨5, 3⟩
      = bump_alloc_layout 64 demoBacking 16 (bump_init 1) ⟨5, 1⟩
    ∧ layout_ctor 5 3 = none :=
  bump_alloc_layout_coerces_align 64 demoBacking 16 (bump_init 1) ⟨5, 3⟩
    (by decide) (Or.inr fun hp => absurd (is_power_of_two_iff.2 hp) (by decide))

/-! ### C7: zero-size allocation is pure -/

/-- C7: for a zero-size layout (with the power-of-two alignment the
layout invariant guarantees), `bump_alloc_layout` returns the current
bump pointer rounded down to the requested alignment and mutates nothing:
the backing allocator is untouched, the arena state is unchanged, and
`bump_get_allocated_bytes` is unchanged. -/
theorem bump_alloc_layout_zero_size (S : Nat) (bk : Backing β) (b : β)
    (self : bump_t) (l : layout_t) (hsz : l.size = 0)
    (_hal : IsPow2 l.align) :
    bump_alloc_layout S bk b self l
      = (b, self, some (align_down (cur_footer S self).ptr l.align))
    ∧ bump_get_allocated_bytes S (bump_alloc_layout S bk b self l).2.1
        = bump_get_allocated_bytes S self := by
  have h : bump_alloc_layout S bk b self l
      = (b, self, some (align_down (cur_footer S self).ptr l.align)) := by
    unfold bump_alloc_layout
    rw [if_pos hsz]
  exact ⟨h, by rw [h]⟩

/-- C7 witness: the theorem at a concrete zero-size layout on a fresh
arena. -/
theorem bump_alloc_layout_zero_size_witness :
    bump_alloc_layout 64 demoBacking 16 (bump_init 8) ⟨0, 16⟩
      = (16, bump_init 8, some (align_down (cur_footer 64 (bump_init 8)).ptr 16))
    ∧ bump_get_allocated_bytes 64
        (bump_alloc_layout 64 demoBacking 16 (bump_init 8) ⟨0, 16⟩).2.1
        = bump_get_allocated_bytes 64 (bump_init 8) :=
  bump_alloc_layout_zero_size 64 demoBacking 16 (bump_init 8) ⟨0, 16⟩ rfl ⟨4, rfl⟩

/-! ### C5: the generic `allocer_realloc` fallback -/

/-- C5: for every backend whose vtable has no `realloc` entry (as for the
POSIX system allocator), `allocer_realloc` behaves as the generic
fallback: a null old pointer is exactly `allocate(new_layout)`; a
zero-size new layout frees the old block and returns null; otherwise it
allocates, copies `min(old.size, new.size)` bytes, frees the old block
and returns the new pointer — and if the new allocation fails it returns
null with the old block untouched and not freed. -/
theorem allocer_realloc_fallback_spec (vt : allocer_vtable β)
    (hvt : vt.realloc = none) (b : β) (m : Mem)
    (old_layout new_layout : layout_t) :
    (allocer_realloc vt b m none old_layout new_layout
       = ((vt.alloc b new_layout).1, m, (vt.alloc b new_layout).2))
    ∧ (∀ q, new_layout.size = 0 →
        allocer_realloc vt b m (some q) old_layout new_layout
          = (vt.free b q old_layout, m, none))
    ∧ (∀ q b2 np, new_layout.size ≠ 0 →
        vt.alloc b new_layout = (b2, some np) →
        allocer_realloc vt b m (some q) old_layout new_layout
          = (vt.free b2 q old_layout,
             memcpy np q (min new_layout.size old_layout.size) m, some np)
        ∧ (∀ i < min new_layout.size old_layout.size,
            memcpy np q (min new_layout.size old_layout.size) m (np + i)
              = m (q + i))
        ∧ (∀ a, a < np ∨ np + min new_layout.size old_layout.size ≤ a →
            memcpy np q (min new_layout.size old_layout.size) m a = m a))
    ∧ (∀ q b2, new_layout.size ≠ 0 →
        vt.alloc b new_layout = (b2, none) →
        allocer_realloc vt b m (some q) old_layout new_layout = (b2, m, none)) := by
  refine ⟨?_, ?_, ?_, ?_⟩
  · unfold allocer_realloc allocer_alloc
    rw [hvt]
  · intro q h0
    unfold allocer_realloc allocer_free
    rw [hvt]
    simp only [if_pos h0]
  · intro q b2 np hnz ha
    refine ⟨?_, fun i hi => memcpy_in m hi, fun a hout => memcpy_out m hout⟩
    unfold allocer_realloc allocer_alloc allocer_free
    rw [hvt]
    simp only [if_neg hnz, ha]
  · intro q b2 hnz ha
    unfold allocer_realloc allocer_alloc
    rw [hvt]
    simp only [if_neg hnz, ha]

/-- C5 witness: the fallback theorem applied to the concrete
`demoVtable` (whose `realloc` entry is `none`) on concrete layouts. -/
theorem allocer_realloc_fallback_spec_witness :
    allocer_realloc demoVtable 16 (fun _ => 0) (some 32) ⟨8, 4⟩ ⟨0, 4⟩
      = (demoVtable.free 16 32 ⟨8, 4⟩, (fun _ => 0 : Mem), none)
    ∧ allocer_realloc demoVtable 16 (fun _ => 0) none ⟨8, 4⟩ ⟨12, 4⟩
      = ((demoVtable.alloc 16 ⟨12, 4⟩).1, (fun _ => 0 : Mem),
         (demoVtable.alloc 16 ⟨12, 4⟩).2) :=
  ⟨((allocer_realloc_fallback_spec demoVtable rfl 16 (fun _ => 0)
      ⟨8, 4⟩ ⟨0, 4⟩).2.1 32 rfl),
   (allocer_realloc_fallback_spec demoVtable rfl 16 (fun _ => 0)
      ⟨8, 4⟩ ⟨12, 4⟩).1⟩

/-! ### C6: `bump_realloc` policy -/

/-- C6: `bump_realloc` with a null old pointer behaves exactly as
`bump_alloc(new_size, align)`; with `new_size = 0` it returns null and
abandons the old block in place (no backing call, no arena change, no
memory change); otherwise it allocates a fresh block, copies exactly
`min(old_size, new_size)` bytes from the start of the old block (hence
exactly `new_size` bytes when shrinking) and returns the new block. -/
theorem bump_realloc_spec (S : Nat) (bk : Backing β) (b : β)
    (self : bump_t) (m : Mem) (old_size new_size align : Nat) :
    (bump_realloc S bk b self m none old_size new_size align
       = ((bump_alloc S bk b self new_size align).1,
          (bump_alloc S bk b self new_size align).2.1, m,
          (bump_alloc S bk b self new_size align).2.2))
    ∧ (∀ op, new_size = 0 →
        bump_realloc S bk b self m (some op) old_size new_size align
          = (b, self, m, none))
    ∧ (∀ op b2 s2 np, new_size ≠ 0 →
        bump_alloc S bk b self new_size align = (b2, s2, some np) →
        bump_realloc S bk b self m (some op) old_size new_size align
          = (b2, s2, memcpy np op (min old_size new_size) m, some np)
        ∧ (∀ i < min old_size new_size,
            memcpy np op (min old_size new_size) m (np + i) = m (op + i))
        ∧ (∀ a, a < np ∨ np + min old_size new_size ≤ a →
            memcpy np op (min old_size new_size) m a = m a)
        ∧ (new_size ≤ old_size → ∀ i < new_size,
            memcpy np op (min old_size new_size) m (np + i) = m (op + i))) := by
  refine ⟨rfl, ?_, ?_⟩
  · intro op h0
    unfold bump_realloc
    simp only [if_pos h0]
  · intro op b2 s2 np hnz ha
    refine ⟨?_, fun i hi => memcpy_in m hi, fun a hout => memcpy_out m hout,
      fun hle i hi => memcpy_in m (by omega)⟩
    unfold bump_realloc
    simp only [if_neg hnz, ha]

/-- C6 witness: the theorem applied on a fresh arena with concrete sizes
(a shrinking reallocation). -/
theorem bump_realloc_spec_witness :
    bump_realloc 64 demoBacking 16 (bump_init 1) (fun a => a) (some 500) 100 10 1
      = ((bump_alloc 64 demoBacking 16 (bump_init 1) 10 1).1,
         (bump_alloc 64 demoBacking 16 (bump_init 1) 10 1).2.1,
         memcpy 4070 500 (min 100 10) (fun a => a), some 4070)
    ∧ memcpy 4070 500 (min 100 10) (fun a => a) (4070 + 3) = ((500 + 3 : Nat)) := by
  have h := (bump_realloc_spec 64 demoBacking 16 (bump_init 1)
      (fun a => a) 100 10 1).2.2 500 4128
      { chunks := [{ data_start := 32, chunk_size := 4096, self_addr := 4080,
                     ptr := 4070, allocated_bytes := 4048 }],
        limit := SIZE_MAX, allocated := 0, min_align := 1 }
      4070 (by decide) (by decide)
  exact ⟨by rw [h.1]; rfl, h.2.2.2 (by decide) 3 (by decide)⟩

/-! ### C10: `bump_deinit` returns the arena to the Empty state -/

/-- C10 counterexample: a subsequent allocation after `bump_deinit` does
NOT always behave as on a freshly initialized arena, because `bump_deinit`
preserves a previously set allocation limit while `bump_init` clears it:
with a limit of 0 the deinitialized arena refuses a 1-byte allocation
that a freshly initialized arena (same `min_align`) serves. -/
theorem bump_deinit_fresh_counterexample :
    (bump_alloc_layout 64 demoBacking 16
        (bump_deinit demoBacking 16
          { chunks := [], limit := 0, allocated := 0, min_align := 1 }).2
        ⟨1, 1⟩).2.2 = none
    ∧ (bump_alloc_layout 64 demoBacking 16 (bump_init 1) ⟨1, 1⟩).2.2
        = some 4079 := by
  constructor
  · rfl
  · rfl

/-- C10 (amended): `bump_deinit` releases the entire chunk chain and
resets `current_chunk` to the empty sentinel, so the arena is back in the
Empty state; a second `bump_deinit` performs zero backing deallocations
(deinit is idempotent); and a subsequent allocation behaves exactly as on
a freshly initialized arena *provided no allocation limit had been set*
(`bump_deinit` preserves the `limit` field, `bump_init` resets it to
`SIZE_MAX`). -/
theorem bump_deinit_spec (S : Nat) (bk : Backing β) (b : β) (self : bump_t) :
    (bump_deinit bk b self
       = (dealloc_chunk_list bk b self.chunks, { self with chunks := [] }))
    ∧ (∀ b2, bump_deinit bk b2 (bump_deinit bk b self).2
         = (b2, (bump_deinit bk b self).2))
    ∧ (∀ k, (bump_deinit countFreeBacking k (bump_deinit bk b self).2).1 = k)
    ∧ (self.limit = SIZE_MAX → self.allocated = 0 →
        (bump_deinit bk b self).2 = bump_init self.min_align
        ∧ ∀ (b3 : β) (l : layout_t),
            bump_alloc_layout S bk b3 (bump_deinit bk b self).2 l
              = bump_alloc_layout S bk b3 (bump_init self.min_align) l) := by
  refine ⟨rfl, fun b2 => rfl, fun k => rfl, fun hlim hal => ?_⟩
  have hst : (bump_deinit bk b self).2 = bump_init self.min_align := by
    unfold bump_deinit bump_init
    cases self with
    | mk chunks limit allocated min_align =>
      simp only at hlim hal ⊢
      rw [hlim, hal]
  exact ⟨hst, fun b3 l => by rw [hst]⟩

/-- C10 witness: the amended theorem applied to a concrete one-chunk
arena with no limit set. -/
theorem bump_deinit_spec_witness :
    (bump_deinit demoBacking 4128
        { chunks := [{ data_start := 32, chunk_size := 4096, self_addr := 4080,
                       ptr := 3976, allocated_bytes := 4048 }],
          limit := SIZE_MAX, allocated := 0, min_align := 8 }).2
       = bump_init 8
    ∧ bump_alloc_layout 64 demoBacking 16
        (bump_deinit demoBacking 4128
          { chunks := [{ data_start := 32, chunk_size := 4096, self_addr := 4080,
                         ptr := 3976, allocated_bytes := 4048 }],
            limit := SIZE_MAX, allocated := 0, min_align := 8 }).2 ⟨5, 1⟩
        = bump_alloc_layout 64 demoBacking 16 (bump_init 8) ⟨5, 1⟩ := by
  have h := bump_deinit_spec 64 demoBacking 4128
    { chunks := [{ data_start := 32, chunk_size := 4096, self_addr := 4080,
                   ptr := 3976, allocated_bytes := 4048 }],
      limit := SIZE_MAX, allocated := 0, min_align := 8 }
  exact ⟨(h.2.2.2 rfl rfl).1, (h.2.2.2 rfl rfl).2 16 ⟨5, 1⟩⟩

/-! ### C3: `bump_reset` -/

theorem fast_caseA_success (S : Nat) (self : bump_t) (l : layout_t)
    (hle : l.align ≤ self.min_align)
    (hfit : align_up l.size self.min_align
              ≤ (cur_footer S self).ptr - (cur_footer S self).data_start) :
    try_alloc_layout_fast S self l
      = some (set_cur_ptr self
                ((cur_footer S self).ptr - align_up l.size self.min_align),
              (cur_footer S self).ptr - align_up l.size self.min_align) := by
  unfold try_alloc_layout_fast
  rw [if_pos hle, if_neg (by omega)]

/-- C3: on an arena with `n ≥ 1` real chunks, `bump_reset` frees exactly
the `n − 1` chunks hanging off `current_chunk.prev` (one backing
deallocation each), keeps the current chunk with its `prev` relinked to
the sentinel, rewinds its bump pointer to the footer address rounded down
to `min_align`, and recomputes `allocated_bytes` as the usable size of the
surviving chunk alone; a subsequent allocation that fits in the retained
chunk touches the backing allocator not at all. -/
theorem bump_reset_spec (S : Nat) (bk : Backing β) (b : β) (self : bump_t)
    (c : chunk_footer_t) (rest : List chunk_footer_t)
    (hc : self.chunks = c :: rest) (hma : 0 < self.min_align) :
    (bump_reset bk b self
       = (dealloc_chunk_list bk b rest,
          { self with chunks := [{ c with
              ptr := align_down c.self_addr self.min_align,
              allocated_bytes := c.self_addr - c.data_start }] }))
    ∧ (∀ k, (bump_reset countFreeBacking k self).1 = k + rest.length)
    ∧ (∀ l : layout_t, l.size ≠ 0 → l.align ≤ self.min_align →
        align_up l.size self.min_align
          ≤ align_down c.self_addr self.min_align - c.data_start →
        ∀ b2 : β,
          bump_alloc_layout S bk b2 (bump_reset bk b self).2 l
            = (b2,
               set_cur_ptr (bump_reset bk b self).2
                 (align_down c.self_addr self.min_align
                   - align_up l.size self.min_align),
               some (align_down c.self_addr self.min_align
                   - align_up l.size self.min_align))) := by
  obtain ⟨chunks, lim, alc, ma⟩ := self
  replace hc : chunks = c :: rest := hc
  replace hma : 0 < ma := hma
  subst hc
  refine ⟨rfl, fun k => dealloc_count k rest, fun l hsz halign hfit b2 => ?_⟩
  replace halign : l.align ≤ ma := halign
  simp only [bump_alloc_layout, if_neg hsz]
  have hfast : try_alloc_layout_fast S
      (bump_reset bk b ⟨c :: rest, lim, alc, ma⟩).2
      (if (decide (l.align = 0) || !is_power_of_two l.align) = true
       then { l with align := 1 } else l)
      = some (set_cur_ptr (bump_reset bk b ⟨c :: rest, lim, alc, ma⟩).2
                (align_down c.self_addr ma - align_up l.size ma),
              align_down c.self_addr ma - align_up l.size ma) := by
    split
    · exact fast_caseA_success S _ { l with align := 1 } hma hfit
    · exact fast_caseA_success S _ l halign hfit
  rw [hfast]

/-- C3 witness: the theorem applied to a concrete two-chunk arena
followed by a fitting 16-byte allocation. -/
theorem bump_reset_spec_witness :
    (bump_reset countFreeBacking 0
       { chunks := [{ data_start := 4160, chunk_size := 160, self_addr := 4272,
                      ptr := 4208, allocated_bytes := 4160 },
                    { data_start := 32, chunk_size := 4096, self_addr := 4080,
                      ptr := 3976, allocated_bytes := 4048 }],
         limit := SIZE_MAX, allocated := 0, min_align := 8 }).1 = 0 + 1
    ∧ bump_alloc_layout 64 countFreeBacking 7
        (bump_reset countFreeBacking 0
          { chunks := [{ data_start := 4160, chunk_size := 160, self_addr := 4272,
                         ptr := 4208, allocated_bytes := 4160 },
                       { data_start := 32, chunk_size := 4096, self_addr := 4080,
                         ptr := 3976, allocated_bytes := 4048 }],
            limit := SIZE_MAX, allocated := 0, min_align := 8 }).2 ⟨16, 8⟩
        = (7,
           set_cur_ptr
             (bump_reset countFreeBacking 0
               { chunks := [{ data_start := 4160, chunk_size := 160, self_addr := 4272,
                              ptr := 4208, allocated_bytes := 4160 },
                            { data_start := 32, chunk_size := 4096, self_addr := 4080,
                              ptr := 3976, allocated_bytes := 4048 }],
                 limit := SIZE_MAX, allocated := 0, min_align := 8 }).2
             (align_down 4272 8 - align_up 16 8),
           some (align_down 4272 8 - align_up 16 8)) := by
  have h := bump_reset_spec 64 countFreeBacking 0
    { chunks := [{ data_start := 4160, chunk_size := 160, self_addr := 4272,
                   ptr := 4208, allocated_bytes := 4160 },
                 { data_start := 32, chunk_size := 4096, self_addr := 4080,
                   ptr := 3976, allocated_bytes := 4048 }],
      limit := SIZE_MAX, allocated := 0, min_align := 8 }
    { data_start := 4160, chunk_size := 160, self_addr := 4272,
      ptr := 4208, allocated_bytes := 4160 }
    [{ data_start := 32, chunk_size := 4096, self_addr := 4080,
       ptr := 3976, allocated_bytes := 4048 }]
    rfl (by decide)
  exact ⟨h.2.1 0, h.2.2 ⟨16, 8⟩ (by decide) (by decide) (by decide) 7⟩

/-! ### C4: the allocation-limit check of the slow path -/

theorem le_ite_clamp (a r : Nat) : r ≤ if a < r then r else a := by
  split
  · exact le_refl r
  · omega

theorem slow_requested_le_candidate (S : Nat) (self : bump_t) (l : layout_t) :
    slow_requested_size self l ≤ slow_candidate S self l :=
  le_ite_clamp _ _

/-- C4 counterexample: with a limit of 3000 on an empty arena and a
100-byte request, the candidate chunk size (4048) exceeds
`remaining = 3000`, yet the candidate is NOT shrunk to `remaining`: the
chunk actually allocated has `chunk_size = 160` (from the bare requested
size 100), not the 3056 bytes that a candidate of 3000 usable bytes would
produce. -/
theorem alloc_layout_slow_limit_counterexample :
    slow_candidate 64 ⟨[], 3000, 0, 1⟩ ⟨100, 1⟩ = 4048
    ∧ slow_requested_size ⟨[], 3000, 0, 1⟩ ⟨100, 1⟩ = 100
    ∧ ((alloc_layout_slow 64 demoBacking 16
          ⟨[], 3000, 0, 1⟩ ⟨100, 1⟩).2.1.chunks.headD (sentinel 64)).chunk_size
        = 160
    ∧ (160 : Nat) ≠ align_up (align_up 3000 CHUNK_ALIGN + FOOTER_SIZE) CHUNK_ALIGN := by
  refine ⟨by decide, by decide, by decide, by decide⟩

/-- C4 (amended): when a limit is set and the slow path runs, with
`remaining = limit − cumulative_allocated` (clamped at 0): if even the
bare requested size (rounded up to `max(align, min_align)`) exceeds
`remaining`, the allocation returns null with no chunk allocated and no
arena or backing state changed; and if the candidate chunk size exceeds
`remaining` while the bare requested size still fits, the candidate is
shrunk to the bare requested size (not to `remaining`) and the slow path
proceeds with it. -/
theorem alloc_layout_slow_limit_spec (S : Nat) (bk : Backing β) (b : β)
    (self : bump_t) (l : layout_t) (hlim : self.limit ≠ SIZE_MAX) :
    (slow_requested_size self l
        > (if self.limit > (cur_footer S self).allocated_bytes
           then self.limit - (cur_footer S self).allocated_bytes else 0) →
      alloc_layout_slow S bk b self l = (b, self, none))
    ∧ (slow_candidate S self l
        > (if self.limit > (cur_footer S self).allocated_bytes
           then self.limit - (cur_footer S self).allocated_bytes else 0) →
      slow_requested_size self l
        ≤ (if self.limit > (cur_footer S self).allocated_bytes
           then self.limit - (cur_footer S self).allocated_bytes else 0) →
      alloc_layout_slow S bk b self l
        = alloc_in_new_chunk S bk b self l (slow_requested_size self l)) := by
  have hrc := slow_requested_le_candidate S self l
  constructor
  · intro hreq
    simp only [alloc_layout_slow, if_pos hlim]
    rw [if_pos (by omega), if_pos hreq]
  · intro hcand hfit
    simp only [alloc_layout_slow, if_pos hlim]
    rw [if_pos hcand, if_neg (by omega)]

/-! ### Shared helper lemmas for the fast path, chunk creation and reset -/

theorem cur_footer_cons (S : Nat) (self : bump_t) (c : chunk_footer_t)
    (rest : List chunk_footer_t) (h : self.chunks = c :: rest) :
    cur_footer S self = c := by
  unfold cur_footer
  rw [h]
  rfl

theorem BumpInv_set_cur_ptr (self : bump_t) (p : Nat) (hinv : BumpInv self)
    (hp : ∀ c rest, self.chunks = c :: rest →
       c.data_start ≤ p ∧ p ≤ c.self_addr ∧ p % self.min_align = 0) :
    BumpInv (set_cur_ptr self p) := by
  unfold set_cur_ptr
  split
  · exact hinv
  case h_2 c rest heq =>
    intro c2 hc2
    rcases List.mem_cons.1 hc2 with rfl | hmem
    · exact hp c rest heq
    · exact hinv c2 (by rw [heq]; exact List.mem_cons_of_mem c hmem)

/-- Characterization of a successful fast-path allocation. -/
theorem fast_some_spec (S : Nat) (self : bump_t) (l : layout_t)
    (self2 : bump_t) (p : Nat)
    (h : try_alloc_layout_fast S self l = some (self2, p)) :
    self2 = set_cur_ptr self p
    ∧ ((l.align ≤ self.min_align
        ∧ p = (cur_footer S self).ptr - align_up l.size self.min_align
        ∧ align_up l.size self.min_align
            ≤ (cur_footer S self).ptr - (cur_footer S self).data_start)
      ∨ (self.min_align < l.align
        ∧ p = align_down (cur_footer S self).ptr l.align - align_up l.size l.align
        ∧ (cur_footer S self).data_start ≤ align_down (cur_footer S self).ptr l.align
        ∧ align_up l.size l.align
            ≤ align_down (cur_footer S self).ptr l.align
              - (cur_footer S self).data_start)) := by
  unfold try_alloc_layout_fast at h
  split at h
  case isTrue hle =>
    simp only [] at h
    split at h
    · exact absurd h (by simp)
    case isFalse hcap =>
      simp only [Option.some.injEq, Prod.mk.injEq] at h
      obtain ⟨h1, h2⟩ := h
      subst h2
      exact ⟨h1.symm, Or.inl ⟨hle, rfl, by omega⟩⟩
  case isFalse hgt =>
    simp only [] at h
    split at h
    · exact absurd h (by simp)
    case isFalse hlow =>
      split at h
      · exact absurd h (by simp)
      case isFalse hcap =>
        simp only [Option.some.injEq, Prod.mk.injEq] at h
        obtain ⟨h1, h2⟩ := h
        subst h2
        exact ⟨h1.symm, Or.inr ⟨by omega, rfl, by omega, by omega⟩⟩

/-- The fast path preserves the chunk invariant. -/
theorem fast_preserves_inv (S : Nat) (self : bump_t) (l : layout_t)
    (self2 : bump_t) (p : Nat)
    (hma : IsPow2 self.min_align) (hal : IsPow2 l.align)
    (hinv : BumpInv self)
    (h : try_alloc_layout_fast S self l = some (self2, p)) :
    BumpInv self2 := by
  obtain ⟨rfl, hcase⟩ := fast_some_spec S self l self2 p h
  apply BumpInv_set_cur_ptr self p hinv
  intro c rest heq
  have hc := cur_footer_cons S self c rest heq
  have hci := hinv c (by rw [heq]; exact List.mem_cons_self c rest)
  obtain ⟨hd, hs, hm⟩ := hci
  rcases hcase with ⟨hle, hp, hfit⟩ | ⟨hgt, hp, hlow, hfit⟩
  · rw [hc] at hp hfit
    have hdvd : self.min_align ∣ c.ptr - align_up l.size self.min_align :=
      Nat.dvd_sub' (mod_zero_dvd hm) dvd_align_up
    exact ⟨by omega, by omega, by rw [hp]; exact dvd_mod_zero hdvd⟩
  · rw [hc] at hp hlow hfit
    have hmal : self.min_align ∣ l.align :=
      hma.dvd_of_le hal (Nat.le_of_lt hgt)
    have hdvd : l.align ∣ align_down c.ptr l.align - align_up l.size l.align :=
      Nat.dvd_sub' dvd_align_down dvd_align_up
    have hle2 : align_down c.ptr l.align ≤ c.ptr := align_down_le
    exact ⟨by omega, by omega,
      by rw [hp]; exact dvd_mod_zero (dvd_trans hmal hdvd)⟩

/-- Characterization of a successful `new_chunk`. -/
theorem new_chunk_some_spec (bk : Backing β) (b : β) (ma n a : Nat)
    (prev : chunk_footer_t) (b2 : β) (f : chunk_footer_t)
    (h : new_chunk bk b ma n a prev = (b2, some f)) :
    ∃ data,
      bk.alloc b ⟨align_up (align_up n CHUNK_ALIGN + FOOTER_SIZE) a, a⟩
        = (b2, some data)
      ∧ f = { data_start := data
              chunk_size := align_up (align_up n CHUNK_ALIGN + FOOTER_SIZE) a
              self_addr := data + align_up n CHUNK_ALIGN
              ptr := align_down (data + align_up n CHUNK_ALIGN) ma
              allocated_bytes :=
                (prev.allocated_bytes + align_up n CHUNK_ALIGN) % USIZE }
      ∧ align_up n CHUNK_ALIGN + FOOTER_SIZE < USIZE := by
  unfold new_chunk at h
  simp only [] at h
  split at h
  case h_1 heq => exact absurd h (by simp)
  case h_2 sz heq =>
    have hca : sz = align_up n CHUNK_ALIGN + FOOTER_SIZE
        ∧ align_up n CHUNK_ALIGN + FOOTER_SIZE < USIZE := by
      unfold checked_add at heq
      split at heq
      · exact ⟨by simpa using heq.symm, by assumption⟩
      · exact absurd heq (by simp)
    obtain ⟨rfl, hbound⟩ := hca
    split at h
    · exact absurd h (by simp)
    case isFalse hnz =>
      split at h
      case h_1 heq2 => exact absurd h (by simp)
      case h_2 data heq2 =>
        simp only [Prod.mk.injEq, Option.some.injEq] at h
        obtain ⟨hb2, hf⟩ := h
        refine ⟨data, ?_, hf.symm, hbound⟩
        rw [← hb2, ← heq2]

/-- A successful `new_chunk` yields a chunk satisfying the invariant,
whenever the chunk alignment is a multiple of 16 (hence of `min_align`)
and the backing honours its alignment contract. -/
theorem new_chunk_chunkinv (bk : Backing β) (hbk : WellBacking bk) (b : β)
    (ma n a : Nat) (prev : chunk_footer_t) (b2 : β) (f : chunk_footer_t)
    (hma : IsPow2 ma) (hma16 : ma ≤ 16) (h16a : 16 ∣ a) (hapos : 0 < a)
    (h : new_chunk bk b ma n a prev = (b2, some f)) : ChunkInv ma f := by
  obtain ⟨data, halloc, rfl, hbound⟩ := new_chunk_some_spec bk b ma n a prev b2 f h
  obtain ⟨hdpos, hdmod⟩ := hbk b _ b2 data hapos halloc
  have hma16d : ma ∣ 16 := hma.dvd_of_le IsPow2.sixteen hma16
  have hmadata : ma ∣ data :=
    dvd_trans hma16d (dvd_trans h16a (mod_zero_dvd hdmod))
  have hman : ma ∣ align_up n CHUNK_ALIGN := dvd_trans hma16d dvd_align_up
  have hptr : align_down (data + align_up n CHUNK_ALIGN) ma
      = data + align_up n CHUNK_ALIGN :=
    align_down_eq_of_dvd (Nat.dvd_add hmadata hman)
  refine ⟨?_, ?_, ?_⟩
  · show data ≤ align_down (data + align_up n CHUNK_ALIGN) ma
    rw [hptr]
    exact Nat.le_add_right data _
  · show align_down (data + align_up n CHUNK_ALIGN) ma ≤ data + align_up n CHUNK_ALIGN
    exact align_down_le
  · exact align_down_mod

/-- `bump_reset` preserves the chunk invariant. -/
theorem reset_preserves_inv (bk : Backing β) (b : β) (self : bump_t)
    (hma : IsPow2 self.min_align) (hinv : BumpInv self) :
    BumpInv (bump_reset bk b self).2 := by
  unfold bump_reset
  split
  · exact hinv
  case h_2 c rest heq =>
    simp only []
    intro c2 hc2
    simp only [List.mem_singleton] at hc2
    subst hc2
    have hci := hinv c (by rw [heq]; exact List.mem_cons_self c rest)
    obtain ⟨hd, hs, hm⟩ := hci
    have h1 : c.ptr ≤ align_down c.self_addr self.min_align :=
      le_align_down hma.pos (mod_zero_dvd hm) hs
    refine ⟨?_, ?_, ?_⟩
    · show c.data_start ≤ align_down c.self_addr self.min_align
      omega
    · show align_down c.self_addr self.min_align ≤ c.self_addr
      exact align_down_le
    · show align_down c.self_addr self.min_align % self.min_align = 0
      exact align_down_mod

/-! ### Helper lemmas for the slow-path success proof -/

theorem IsPow2.max_pow2 (ha : IsPow2 a) (hb : IsPow2 b) : IsPow2 (max a b) := by
  rcases Nat.le_total a b with h | h
  · rw [Nat.max_eq_right h]; exact hb
  · rw [Nat.max_eq_left h]; exact ha

theorem ite_clamp_le (a r M : Nat) (ha : a ≤ M) (hr : r ≤ M) :
    (if a < r then r else a) ≤ M := by
  split <;> omega

/-- Bounds on the rounded request size of the slow path, for layouts with
power-of-two alignments at most 16 and size within the default chunk
capacity. -/
theorem requested_size_le (self : bump_t) (l : layout_t)
    (hma : IsPow2 self.min_align) (hma16 : self.min_align ≤ 16)
    (hal : IsPow2 l.align) (hal16 : l.align ≤ 16)
    (hsz : l.size ≤ DEFAULT_CHUNK_SIZE_WITHOUT_FOOTER) :
    slow_requested_size self l ≤ DEFAULT_CHUNK_SIZE_WITHOUT_FOOTER
    ∧ l.size ≤ slow_requested_size self l
    ∧ (max l.align self.min_align) ∣ slow_requested_size self l := by
  have hra : IsPow2 (max l.align self.min_align) := hal.max_pow2 hma
  have hra16 : max l.align self.min_align ≤ 16 := max_le hal16 hma16
  have hpos := hra.pos
  have hdvdD : (max l.align self.min_align) ∣ DEFAULT_CHUNK_SIZE_WITHOUT_FOOTER :=
    dvd_trans (hra.dvd_of_le IsPow2.sixteen hra16)
      (⟨253, rfl⟩ : (16:Nat) ∣ DEFAULT_CHUNK_SIZE_WITHOUT_FOOTER)
  have hsz4048 : l.size ≤ 4048 := hsz
  have hwrap : l.size + max l.align self.min_align ≤ USIZE := by
    show _ ≤ 2 ^ 64
    omega
  exact ⟨align_up_le hpos hdvdD hsz hwrap, le_align_up hpos hwrap, dvd_align_up⟩

theorem checked_mul_sat_le (pu : Nat) (h : pu ≤ 2 ^ 62) :
    (match checked_mul pu 2 with
     | none => SIZE_MAX
     | some v => v) ≤ 2 ^ 63 := by
  unfold checked_mul
  rw [if_pos (show pu * 2 < USIZE by show _ < 2 ^ 64; omega)]
  show pu * 2 ≤ 2 ^ 63
  omega

/-- The candidate chunk size of the slow path stays below `2 ^ 63` on any
sane arena. -/
theorem slow_candidate_le (S : Nat) (self : bump_t) (l : layout_t)
    (hma : IsPow2 self.min_align) (hma16 : self.min_align ≤ 16)
    (hal : IsPow2 l.align) (hal16 : l.align ≤ 16)
    (hsz : l.size ≤ DEFAULT_CHUNK_SIZE_WITHOUT_FOOTER)
    (hsane : ∀ c ∈ self.chunks, SaneChunk c) :
    slow_candidate S self l ≤ 2 ^ 63 := by
  have hrs := (requested_size_le self l hma hma16 hal hal16 hsz).1
  have hrs4048 : slow_requested_size self l ≤ 4048 := hrs
  unfold slow_candidate
  apply ite_clamp_le
  · apply ite_clamp_le
    · apply checked_mul_sat_le
      split
      · exact Nat.zero_le _
      case isFalse hne =>
        cases hch : self.chunks with
        | nil => rw [hch] at hne; exact absurd rfl hne
        | cons c rest =>
          obtain ⟨h16, hpos, hfs, hle⟩ :=
            hsane c (by rw [hch]; exact List.mem_cons_self c rest)
          rw [cur_footer_cons S self c rest hch]
          rw [wrap_sub_eq hfs (by show _ < 2 ^ 64; omega)]
          omega
    · show (4048:Nat) ≤ 2 ^ 63
      omega
  · omega

/-- With an infallible, contract-honouring backing and a sane requested
size, `new_chunk` with chunk alignment 16 succeeds, and its footer sits at
`data + align_up(n, 16)` with the bump pointer already `min_align`-aligned
there. -/
theorem new_chunk_16_success (bk : Backing β) (hbk : WellBacking bk)
    (hinf : InfallibleBacking bk) (b : β) (ma n : Nat)
    (prev : chunk_footer_t) (hma : IsPow2 ma) (hma16 : ma ≤ 16)
    (hn : n ≤ 2 ^ 63) :
    ∃ b2 data,
      new_chunk bk b ma n 16 prev
        = (b2, some { data_start := data
                      chunk_size := align_up n CHUNK_ALIGN + FOOTER_SIZE
                      self_addr := data + align_up n CHUNK_ALIGN
                      ptr := data + align_up n CHUNK_ALIGN
                      allocated_bytes :=
                        (prev.allocated_bytes + align_up n CHUNK_ALIGN) % USIZE })
      ∧ 16 ∣ data ∧ 0 < data ∧ n ≤ align_up n CHUNK_ALIGN
      ∧ align_up n CHUNK_ALIGN < n + 16 := by
  have hup : align_up n CHUNK_ALIGN < n + 16 :=
    align_up_lt (by decide) (by show n + 16 ≤ 2 ^ 64; omega)
  have hnge : n ≤ align_up n CHUNK_ALIGN :=
    le_align_up (by decide) (by show n + 16 ≤ 2 ^ 64; omega)
  have h16n : (16:Nat) ∣ align_up n CHUNK_ALIGN := dvd_align_up
  have hca : checked_add (align_up n CHUNK_ALIGN) FOOTER_SIZE
      = some (align_up n CHUNK_ALIGN + FOOTER_SIZE) := by
    unfold checked_add
    rw [if_pos (by show _ < 2 ^ 64; show align_up n CHUNK_ALIGN + 48 < 2 ^ 64; omega)]
  have hsz16 : align_up (align_up n CHUNK_ALIGN + FOOTER_SIZE) 16
      = align_up n CHUNK_ALIGN + FOOTER_SIZE :=
    align_up_eq_of_dvd (by decide)
      (Nat.dvd_add h16n (by decide))
      (by show align_up n CHUNK_ALIGN + 48 + 16 ≤ 2 ^ 64; omega)
  cases halo : bk.alloc b ⟨align_up n CHUNK_ALIGN + FOOTER_SIZE, 16⟩ with
  | mk b2 o =>
    cases o with
    | none =>
      have hs := hinf b ⟨align_up n CHUNK_ALIGN + FOOTER_SIZE, 16⟩
      rw [halo] at hs
      exact absurd hs (by simp)
    | some data =>
      obtain ⟨hdpos, hdmod⟩ :=
        hbk b ⟨align_up n CHUNK_ALIGN + FOOTER_SIZE, 16⟩ b2 data
          (by show (0:Nat) < 16; decide) halo
      have hmadata : ma ∣ data :=
        dvd_trans (hma.dvd_of_le IsPow2.sixteen hma16) (mod_zero_dvd hdmod)
      have hman : ma ∣ align_up n CHUNK_ALIGN :=
        dvd_trans (hma.dvd_of_le IsPow2.sixteen hma16) h16n
      have hptr : align_down (data + align_up n CHUNK_ALIGN) ma
          = data + align_up n CHUNK_ALIGN :=
        align_down_eq_of_dvd (Nat.dvd_add hmadata hman)
      refine ⟨b2, data, ?_, mod_zero_dvd hdmod, hdpos, hnge, hup⟩
      unfold new_chunk
      simp only [hca, hsz16]
      rw [if_neg (show ¬ (align_up n CHUNK_ALIGN + FOOTER_SIZE = 0) by
        show ¬ (align_up n CHUNK_ALIGN + 48 = 0); omega)]
      simp only [halo, hptr]

/-- With both alignments powers of two at most 16, a request within the
default chunk capacity, and a sized-to-fit candidate `n4`, the carve into
a freshly allocated chunk succeeds with an aligned non-null result. -/
theorem alloc_in_new_chunk_success (S : Nat) (bk : Backing β)
    (hbk : WellBacking bk) (hinf : InfallibleBacking bk) (b : β)
    (self : bump_t) (l : layout_t) (n4 : Nat)
    (hma : IsPow2 self.min_align) (hma16 : self.min_align ≤ 16)
    (hal : IsPow2 l.align) (hal16 : l.align ≤ 16)
    (hsz : l.size ≤ DEFAULT_CHUNK_SIZE_WITHOUT_FOOTER)
    (hrs : slow_requested_size self l ≤ n4) (hn4 : n4 ≤ 2 ^ 63) :
    ∃ b2 self2 p,
      alloc_in_new_chunk S bk b self l n4 = (b2, self2, some p)
      ∧ 0 < p ∧ p % l.align = 0 := by
  obtain ⟨b2, data, hnc, h16d, hdpos, hnge, hup⟩ :=
    new_chunk_16_success bk hbk hinf b self.min_align n4 (cur_footer S self)
      hma hma16 hn4
  have hma16d : self.min_align ∣ 16 := hma.dvd_of_le IsPow2.sixteen hma16
  have hca0 : max CHUNK_ALIGN self.min_align = 16 := Nat.max_eq_left hma16
  have hsz4048 : l.size ≤ 4048 := hsz
  unfold alloc_in_new_chunk
  simp only [hca0]
  rw [if_neg (show ¬ l.align > 16 by omega)]
  simp only [hnc]
  by_cases hle : l.align ≤ self.min_align
  · rw [if_pos hle]
    have hcka : checked_add l.size (self.min_align - 1)
        = some (l.size + (self.min_align - 1)) := by
      unfold checked_add
      rw [if_pos (by show _ < 2 ^ 64; omega)]
    simp only [hcka]
    have hrseq : slow_requested_size self l = align_up l.size self.min_align := by
      unfold slow_requested_size
      rw [Nat.max_eq_right hle]
    have hasz : align_up l.size self.min_align ≤ align_up n4 CHUNK_ALIGN := by
      rw [← hrseq]
      omega
    refine ⟨b2, _,
      data + align_up n4 CHUNK_ALIGN - align_up l.size self.min_align,
      rfl, by omega, ?_⟩
    have hdvd : self.min_align
        ∣ data + align_up n4 CHUNK_ALIGN - align_up l.size self.min_align :=
      Nat.dvd_sub'
        (Nat.dvd_add (dvd_trans hma16d (mod_zero_dvd (dvd_mod_zero h16d)))
          (dvd_trans hma16d dvd_align_up))
        dvd_align_up
    exact dvd_mod_zero (dvd_trans (hal.dvd_of_le hma hle) hdvd)
  · rw [if_neg hle]
    have hlgt : self.min_align < l.align := by omega
    have h16l : l.align ∣ 16 := hal.dvd_of_le IsPow2.sixteen hal16
    have hape : align_down (data + align_up n4 CHUNK_ALIGN) l.align
        = data + align_up n4 CHUNK_ALIGN :=
      align_down_eq_of_dvd
        (Nat.dvd_add (dvd_trans h16l h16d) (dvd_trans h16l dvd_align_up))
    have hrseq : slow_requested_size self l = align_up l.size l.align := by
      unfold slow_requested_size
      rw [Nat.max_eq_left (Nat.le_of_lt hlgt)]
    have hasz : align_up l.size l.align ≤ align_up n4 CHUNK_ALIGN := by
      rw [← hrseq]
      omega
    refine ⟨b2, _,
      align_down (data + align_up n4 CHUNK_ALIGN) l.align
        - align_up l.size l.align,
      rfl, by rw [hape]; omega, ?_⟩
    exact dvd_mod_zero (Nat.dvd_sub' dvd_align_down dvd_align_up)

/-- A successful fast-path allocation of a non-zero size within the
default capacity, on an invariant-satisfying sane arena, returns a
non-null aligned pointer. -/
theorem fast_success_aligned (S : Nat) (self : bump_t) (l : layout_t)
    (self2 : bump_t) (p : Nat)
    (hma : IsPow2 self.min_align) (hma16 : self.min_align ≤ 16)
    (hal : IsPow2 l.align) (hal16 : l.align ≤ 16)
    (hszpos : 0 < l.size) (hsz : l.size ≤ DEFAULT_CHUNK_SIZE_WITHOUT_FOOTER)
    (hinv : BumpInv self) (hsane : ∀ c ∈ self.chunks, SaneChunk c)
    (h : try_alloc_layout_fast S self l = some (self2, p)) :
    0 < p ∧ p % l.align = 0 := by
  have hsz4048 : l.size ≤ 4048 := hsz
  obtain ⟨-, hcase⟩ := fast_some_spec S self l self2 p h
  cases hch : self.chunks with
  | nil =>
    exfalso
    have hcur : cur_footer S self = sentinel S := by
      unfold cur_footer
      rw [hch]
      rfl
    rcases hcase with ⟨hle, hp, hfit⟩ | ⟨hgt, hp, hlow, hfit⟩
    · rw [hcur] at hfit
      have hge : l.size ≤ align_up l.size self.min_align :=
        le_align_up hma.pos (by show _ ≤ 2 ^ 64; omega)
      have hfit2 : align_up l.size self.min_align ≤ S - S := hfit
      omega
    · rw [hcur] at hlow hfit
      have hge : l.size ≤ align_up l.size l.align :=
        le_align_up hal.pos (by show _ ≤ 2 ^ 64; omega)
      have hle2 : align_down S l.align ≤ S := align_down_le
      have hlow2 : S ≤ align_down S l.align := hlow
      have hfit2 : align_up l.size l.align ≤ align_down S l.align - S := hfit
      omega
  | cons c rest =>
    have hcur := cur_footer_cons S self c rest hch
    have hmem : c ∈ self.chunks := by
      rw [hch]
      exact List.mem_cons_self c rest
    obtain ⟨hd, hs2, hm⟩ := hinv c hmem
    obtain ⟨h16c, hcpos, -, -⟩ := hsane c hmem
    have hstart16 : 16 ≤ c.data_start := Nat.le_of_dvd hcpos (mod_zero_dvd h16c)
    rcases hcase with ⟨hle, hp, hfit⟩ | ⟨hgt, hp, hlow, hfit⟩
    · rw [hcur] at hp hfit
      refine ⟨by omega, ?_⟩
      have hdvd : self.min_align ∣ c.ptr - align_up l.size self.min_align :=
        Nat.dvd_sub' (mod_zero_dvd hm) dvd_align_up
      rw [hp]
      exact dvd_mod_zero (dvd_trans (hal.dvd_of_le hma hle) hdvd)
    · rw [hcur] at hp hlow hfit
      refine ⟨by omega, ?_⟩
      rw [hp]
      exact dvd_mod_zero (Nat.dvd_sub' dvd_align_down dvd_align_up)

/-! ### C1: allocation success and alignment -/

/-- C1: on any bump arena whose `min_align` is a power of two at most 16
(the `bump_init` precondition), whose chunks satisfy the invariant and are
sane, with no allocation limit set, an infallible aligned backing, and a
sentinel at a realistic static address, `bump_alloc_layout` on a layout
with power-of-two `align ≤ 16` and `size` within the default chunk
capacity returns a non-null address `a` with `a % align = 0`. -/
theorem bump_alloc_layout_aligned (S : Nat) (bk : Backing β) (b : β)
    (self : bump_t) (l : layout_t)
    (hS : 16 ≤ S)
    (hbk : WellBacking bk) (hinf : InfallibleBacking bk)
    (hma : IsPow2 self.min_align) (hma16 : self.min_align ≤ 16)
    (hlim : self.limit = SIZE_MAX)
    (hinv : BumpInv self) (hsane : ∀ c ∈ self.chunks, SaneChunk c)
    (hal : IsPow2 l.align) (hal16 : l.align ≤ 16)
    (hsz : l.size ≤ DEFAULT_CHUNK_SIZE_WITHOUT_FOOTER) :
    ∃ b2 self2 a,
      bump_alloc_layout S bk b self l = (b2, self2, some a)
      ∧ 0 < a ∧ a % l.align = 0 := by
  unfold bump_alloc_layout
  by_cases hsz0 : l.size = 0
  · rw [if_pos hsz0]
    refine ⟨b, self, _, rfl, ?_, align_down_mod⟩
    have hp16 : 16 ≤ (cur_footer S self).ptr := by
      cases hch : self.chunks with
      | nil =>
        have hcur : cur_footer S self = sentinel S := by
          unfold cur_footer
          rw [hch]
          rfl
        rw [hcur]
        exact hS
      | cons c rest =>
        have hcur := cur_footer_cons S self c rest hch
        have hmem : c ∈ self.chunks := by
          rw [hch]
          exact List.mem_cons_self c rest
        obtain ⟨hd, -, -⟩ := hinv c hmem
        obtain ⟨h16c, hcpos, -, -⟩ := hsane c hmem
        have := Nat.le_of_dvd hcpos (mod_zero_dvd h16c)
        rw [hcur]
        omega
    have := le_align_down hal.pos (dvd_refl l.align)
      (le_trans hal16 hp16)
    have := hal.pos
    omega
  · rw [if_neg hsz0]
    have h1 : is_power_of_two l.align = true := is_power_of_two_iff.2 hal
    have h2 : decide (l.align = 0) = false := by
      have := hal.pos
      simp only [decide_eq_false_iff_not]
      omega
    have hcond : (decide (l.align = 0) || !is_power_of_two l.align) = false := by
      rw [h1, h2]
      rfl
    rw [hcond, if_neg Bool.false_ne_true]
    cases hf : try_alloc_layout_fast S self l with
    | some pr =>
      obtain ⟨s2, p⟩ := pr
      simp only [hf]
      exact ⟨b, s2, p, rfl,
        fast_success_aligned S self l s2 p hma hma16 hal hal16
          (by omega) hsz hinv hsane hf⟩
    | none =>
      simp only [hf]
      simp only [alloc_layout_slow]
      rw [if_neg (fun hne => hne hlim)]
      exact alloc_in_new_chunk_success S bk hbk hinf b self l
        (slow_candidate S self l) hma hma16 hal hal16 hsz
        (slow_requested_le_candidate S self l)
        (slow_candidate_le S self l hma hma16 hal hal16 hsz hsane)

/-- C1 witness: the theorem on a fresh empty arena (`min_align = 8`) with
the demo backing and a 100-byte, 8-aligned request; the allocation goes
through the slow path, creates the default 4096-byte chunk and returns a
non-null 8-aligned address. -/
theorem bump_alloc_layout_aligned_witness :
    ∃ b2 self2 a,
      bump_alloc_layout 64 demoBacking 16 (bump_init 8) ⟨100, 8⟩
        = (b2, self2, some a)
      ∧ 0 < a ∧ a % 8 = 0 :=
  bump_alloc_layout_aligned 64 demoBacking 16 (bump_init 8) ⟨100, 8⟩
    (by decide) demoBacking_well demoBacking_infallible
    ⟨3, rfl⟩ (by decide) rfl
    (fun c hc => absurd hc (by simp [bump_init]))
    (fun c hc => absurd hc (by simp [bump_init]))
    ⟨3, rfl⟩ (by decide) (by decide)

/-! ### C2: preservation of the chunk invariant -/

/-- C2: every operation of the bump arena preserves the chunk invariant
`data_start ≤ ptr ≤ self_addr ∧ ptr % min_align = 0` on the real
(non-sentinel) chunks: the allocation fast path, new-chunk creation (for
the 16-multiple chunk alignments the slow path uses, with a
contract-honouring backing), and `bump_reset`. -/
theorem bump_chunk_invariant_preserved (S : Nat) (bk : Backing β)
    (hbk : WellBacking bk) :
    (∀ self l self2 p, IsPow2 self.min_align → IsPow2 l.align →
       BumpInv self → try_alloc_layout_fast S self l = some (self2, p) →
       BumpInv self2)
    ∧ (∀ b ma n a prev b2 f, IsPow2 ma → ma ≤ 16 → 16 ∣ a → 0 < a →
       new_chunk bk b ma n a prev = (b2, some f) → ChunkInv ma f)
    ∧ (∀ b self, IsPow2 self.min_align → BumpInv self →
       BumpInv (bump_reset bk b self).2) :=
  ⟨fun self l self2 p hma hal hinv h =>
     fast_preserves_inv S self l self2 p hma hal hinv h,
   fun b ma n a prev b2 f hma hma16 h16a hapos h =>
     new_chunk_chunkinv bk hbk b ma n a prev b2 f hma hma16 h16a hapos h,
   fun b self hma hinv => reset_preserves_inv bk b self hma hinv⟩

/-- C2 witness: the three conjuncts applied on concrete arenas — a
fast-path allocation, a concrete `new_chunk`, and a reset of a two-chunk
arena. -/
theorem bump_chunk_invariant_preserved_witness :
    BumpInv { chunks := [{ data_start := 32, chunk_size := 4096, self_addr := 4080,
                           ptr := 3976, allocated_bytes := 4048 }],
              limit := SIZE_MAX, allocated := 0, min_align := 8 }
    ∧ ChunkInv 8 { data_start := 32, chunk_size := 160, self_addr := 144,
                   ptr := 144, allocated_bytes := 112 }
    ∧ BumpInv (bump_reset demoBacking 99
        { chunks := [{ data_start := 4160, chunk_size := 160, self_addr := 4272,
                       ptr := 4208, allocated_bytes := 4160 },
                     { data_start := 32, chunk_size := 4096, self_addr := 4080,
                       ptr := 3976, allocated_bytes := 4048 }],
          limit := SIZE_MAX, allocated := 0, min_align := 8 }).2 := by
  have h := bump_chunk_invariant_preserved 64 demoBacking demoBacking_well
  refine ⟨?_, ?_, ?_⟩
  · exact h.1
      { chunks := [{ data_start := 32, chunk_size := 4096, self_addr := 4080,
                     ptr := 4080, allocated_bytes := 4048 }],
        limit := SIZE_MAX, allocated := 0, min_align := 8 }
      ⟨100, 8⟩ _ 3976 ⟨3, rfl⟩ ⟨3, rfl⟩
      (by unfold BumpInv ChunkInv; decide) (by decide)
  · exact h.2.1 16 8 100 16 (sentinel 64) 192
      { data_start := 32, chunk_size := 160, self_addr := 144,
        ptr := 144, allocated_bytes := 112 }
      ⟨3, rfl⟩ (by decide) (by decide) (by decide) (by decide)
  · exact h.2.2 99
      { chunks := [{ data_start := 4160, chunk_size := 160, self_addr := 4272,
                     ptr := 4208, allocated_bytes := 4160 },
                   { data_start := 32, chunk_size := 4096, self_addr := 4080,
                     ptr := 3976, allocated_bytes := 4048 }],
        limit := SIZE_MAX, allocated := 0, min_align := 8 }
      ⟨3, rfl⟩ (by unfold BumpInv ChunkInv; decide)

/-- C4 witness: the amended theorem at two concrete inputs — a hard OOM
(limit 50, request 100) and a capped growth (limit 3000, request 100). -/
theorem alloc_layout_slow_limit_spec_witness :
    alloc_layout_slow 64 demoBacking 16 ⟨[], 50, 0, 1⟩ ⟨100, 1⟩
      = (16, ⟨[], 50, 0, 1⟩, none)
    ∧ alloc_layout_slow 64 demoBacking 16 ⟨[], 3000, 0, 1⟩ ⟨100, 1⟩
      = alloc_in_new_chunk 64 demoBacking 16 ⟨[], 3000, 0, 1⟩ ⟨100, 1⟩
          (slow_requested_size ⟨[], 3000, 0, 1⟩ ⟨100, 1⟩) :=
  ⟨(alloc_layout_slow_limit_spec 64 demoBacking 16 ⟨[], 50, 0, 1⟩ ⟨100, 1⟩
      (by decide)).1 (by decide),
   (alloc_layout_slow_limit_spec 64 demoBacking 16 ⟨[], 3000, 0, 1⟩ ⟨100, 1⟩
      (by decide)).2 (by decide) (by decide)⟩

end Fluf

